import Mathlib

/-!
Verification of the Robust-Motion-In-betweening training and inference loops
(`src/train.py`, `src/test.py`).

The per-window autoregressive rollout shared by `train.py` (lines 167-247)
and `test.py` (lines 181-272) is embedded as an explicit state-passing loop
over an abstract numeric field `K` (the program computes on floats; `K = ℝ`
gives the exact semantics, `K = ℚ` is used to evaluate concrete instances).
The neural modules (the three input encoders, positional encoding, noise
injection, LSTM, decoder) live outside this repository (`rmi.model.*`), so
they are abstracted as an opaque stepping function threaded through an
opaque hidden-state type `H`; everything the two source files themselves
compute (input selection, offset subtraction, residual addition, quaternion
normalization, list accumulation) is modelled explicitly.
-/

/-- A length-`n` numeric vector (one row of a float tensor). -/
abbrev Vec (K : Type) (n : Nat) := Fin n → K

/-- A quaternion: 4 scalar components (last tensor axis of `local_q`). -/
abbrev Quat (K : Type) := Fin 4 → K

/-- Per-joint local quaternions for `j` joints (`local_q` viewed as `(j, 4)`;
the flat `(j*4)` view used by the Python code is the same data). -/
abbrev LocalQ (K : Type) (j : Nat) := Fin j → Quat K

/-- Ground-truth window data fed to one batch of the rollout, as unpacked
from `sampled_batch` in `train.py` lines 137-151 / `test.py` lines 162-175.
Frame-indexed tensors are modelled as functions from the frame index. -/
structure GTData (K : Type) (j c : Nat) where
  root_p : Nat → Vec K 3
  root_v : Nat → Vec K 3
  local_q : Nat → LocalQ K j
  contact : Nat → Vec K c
  root_p_offset : Vec K 3
  local_q_offset : LocalQ K j
  q_target : LocalQ K j

/-- The neural modules used inside one rollout step, abstracted as one
opaque function: given the hidden state and the state/offset/target inputs
built by the loop (plus `t` and the time-to-arrival `tta` consumed by the
positional encoding and noise schedule), it returns the new hidden state and
the decoder outputs `(local_q_v_pred, root_v_pred, contact_pred)`
(`h_pred[:,:,:target_in]`, `h_pred[:,:,target_in:]`, `contact_pred` in
`train.py` lines 212-219). -/
structure Net (K H : Type) (j c : Nat) where
  step : H → LocalQ K j → Vec K 3 → Vec K c → Vec K 3 → LocalQ K j → LocalQ K j →
    Nat → Nat → H × (LocalQ K j × Vec K 3 × Vec K c)
  initHidden : H

/-- Squared L2 norm of a quaternion (the sum of squares inside
`torch.norm(local_q_pred_, dim=-1)`, `train.py` line 217). -/
def quatNormSq {K : Type} [Field K] (v : Quat K) : K :=
  v 0 ^ 2 + v 1 ^ 2 + v 2 ^ 2 + v 3 ^ 2

/-- `local_q_pred_ / torch.norm(local_q_pred_, dim=-1, keepdim=True)`
(`train.py` line 217 / `test.py` line 264): divide each component by the
L2 norm, with the numeric square root passed in as `sq`. -/
def normalizeQuat {K : Type} [Field K] (sq : K → K) (v : Quat K) : Quat K :=
  fun i => v i / sq (quatNormSq v)

/-- The values produced by one iteration of the rollout loop: the four
inputs it selected (lines 169-179 of `train.py` / 183-193 of `test.py`)
and the predictions derived from the decoder output (lines 212-240 /
258-267). -/
structure StepRec (K : Type) (j c : Nat) where
  root_p_t : Vec K 3
  root_v_t : Vec K 3
  local_q_t : LocalQ K j
  contact_t : Vec K c
  local_q_v_pred : LocalQ K j
  root_v_pred : Vec K 3
  contact_pred : Vec K c
  local_q_pred : LocalQ K j
  local_q_pred_n : LocalQ K j
  root_pred : Vec K 3

instance {K : Type} [Field K] {j c : Nat} : Inhabited (StepRec K j c) :=
  ⟨{ root_p_t := 0, root_v_t := 0, local_q_t := fun _ => 0, contact_t := 0,
     local_q_v_pred := fun _ => 0, root_v_pred := 0, contact_pred := 0,
     local_q_pred := fun _ => 0, local_q_pred_n := fun _ => 0, root_pred := 0 }⟩

/-- One iteration of the rollout loop body (`train.py` lines 167-240,
`test.py` lines 181-267), at loop counter `t`, with ground-truth inputs read
at frame `t + o` in the teacher-forced branch (`o = 10` in `train.py`,
`o = 9` in `test.py`): select inputs from ground truth at `t = 0` and from
the previous iteration's predictions otherwise, form the offset inputs by
subtraction, run the networks, and add the decoder residual to the previous
pose (rotations) and previous root position (root). -/
def stepAt {K H : Type} [Field K] {j c : Nat} (o : Nat) (net : Net K H j c)
    (sq : K → K) (d : GTData K j c) (frames t : Nat) (h : H)
    (prev : StepRec K j c) : H × StepRec K j c :=
  let src : Vec K 3 × Vec K 3 × LocalQ K j × Vec K c :=
    if t = 0 then
      (d.root_p (t + o), d.root_v (t + o), d.local_q (t + o), d.contact (t + o))
    else
      (prev.root_pred, prev.root_v_pred, prev.local_q_pred, prev.contact_pred)
  let root_p_t := src.1
  let root_v_t := src.2.1
  let local_q_t := src.2.2.1
  let contact_t := src.2.2.2
  let root_p_offset_t := d.root_p_offset - root_p_t
  let local_q_offset_t := d.local_q_offset - local_q_t
  let res := net.step h local_q_t root_v_t contact_t root_p_offset_t
    local_q_offset_t d.q_target t (frames - t)
  let local_q_v_pred := res.2.1
  let root_v_pred := res.2.2.1
  let contact_pred := res.2.2.2
  let local_q_pred := local_q_v_pred + local_q_t
  let local_q_pred_n := fun jn => normalizeQuat sq (local_q_pred jn)
  let root_pred := root_v_pred + root_p_t
  (res.1,
   { root_p_t := root_p_t, root_v_t := root_v_t, local_q_t := local_q_t,
     contact_t := contact_t, local_q_v_pred := local_q_v_pred,
     root_v_pred := root_v_pred, contact_pred := contact_pred,
     local_q_pred := local_q_pred, local_q_pred_n := local_q_pred_n,
     root_pred := root_pred })

/-- The rollout loop `for t in range(training_frames)` with its carried
hidden state and previous-step predictions, accumulating each iteration's
record (the `*_pred_list.append` calls). -/
def rolloutAux {K H : Type} [Field K] {j c : Nat} (o : Nat) (net : Net K H j c)
    (sq : K → K) (d : GTData K j c) (frames : Nat) :
    Nat → Nat → H → StepRec K j c → List (StepRec K j c) → List (StepRec K j c)
  | _, 0, _, _, acc => acc.reverse
  | t, rem + 1, h, prev, acc =>
    let s := stepAt o net sq d frames t h prev
    rolloutAux o net sq d frames (t + 1) rem s.1 s.2 (s.2 :: acc)

/-- A full rollout window: hidden state freshly initialized, loop counter
starting at 0 (the `prev` seed is irrelevant: iteration 0 reads ground
truth). -/
def rollout {K H : Type} [Field K] {j c : Nat} (o : Nat) (net : Net K H j c)
    (sq : K → K) (d : GTData K j c) (frames : Nat) : List (StepRec K j c) :=
  rolloutAux o net sq d frames 0 frames net.initHidden default []

/-- The training rollout, `train.py` lines 167-247: ground truth anchored at
frame offset 10. -/
def trainRollout {K H : Type} [Field K] {j c : Nat} (net : Net K H j c)
    (sq : K → K) (d : GTData K j c) (frames : Nat) : List (StepRec K j c) :=
  rollout 10 net sq d frames

/-- The inference rollout, `test.py` lines 181-272: ground truth anchored at
frame offset 9. -/
def testRollout {K H : Type} [Field K] {j c : Nat} (net : Net K H j c)
    (sq : K → K) (d : GTData K j c) (frames : Nat) : List (StepRec K j c) :=
  rollout 9 net sq d frames

/-- The record produced by iteration `t` of the training rollout. -/
def trainRolloutAt {K H : Type} [Field K] {j c : Nat} (net : Net K H j c)
    (sq : K → K) (d : GTData K j c) (frames t : Nat) : StepRec K j c :=
  (trainRollout net sq d frames).getD t default

/-- The record produced by iteration `t` of the inference rollout. -/
def testRolloutAt {K H : Type} [Field K] {j c : Nat} (net : Net K H j c)
    (sq : K → K) (d : GTData K j c) (frames t : Nat) : StepRec K j c :=
  (testRollout net sq d frames).getD t default

/-- The four state inputs an iteration consumed. -/
def srcOf {K : Type} {j c : Nat} (r : StepRec K j c) :
    Vec K 3 × Vec K 3 × LocalQ K j × Vec K c :=
  (r.root_p_t, r.root_v_t, r.local_q_t, r.contact_t)

/-- The four predictions an iteration carries to the next one
(`root_pred, root_v_pred, local_q_pred, contact_pred`). -/
def predOf {K : Type} {j c : Nat} (r : StepRec K j c) :
    Vec K 3 × Vec K 3 × LocalQ K j × Vec K c :=
  (r.root_pred, r.root_v_pred, r.local_q_pred, r.contact_pred)

/-- Ground-truth pose data at frame `n`, in the same component order. -/
def gtAt {K : Type} {j c : Nat} (d : GTData K j c) (n : Nat) :
    Vec K 3 × Vec K 3 × LocalQ K j × Vec K c :=
  (d.root_p n, d.root_v n, d.local_q n, d.contact n)

/-- Hidden state and previous-step record at entry to iteration `t` of the
loop (iteration 0 starts from the freshly initialized hidden state). -/
def stateBefore {K H : Type} [Field K] {j c : Nat} (o : Nat) (net : Net K H j c)
    (sq : K → K) (d : GTData K j c) (frames : Nat) : Nat → H × StepRec K j c
  | 0 => (net.initHidden, default)
  | t + 1 =>
    stepAt o net sq d frames t (stateBefore o net sq d frames t).1
      (stateBefore o net sq d frames t).2

/-- The record produced by iteration `t`. -/
def recAt {K H : Type} [Field K] {j c : Nat} (o : Nat) (net : Net K H j c)
    (sq : K → K) (d : GTData K j c) (frames t : Nat) : StepRec K j c :=
  (stateBefore o net sq d frames (t + 1)).2

lemma rolloutAux_eq_map {K H : Type} [Field K] {j c : Nat} (o : Nat)
    (net : Net K H j c) (sq : K → K) (d : GTData K j c) (frames : Nat) :
    ∀ (rem t : Nat) (acc : List (StepRec K j c)),
      rolloutAux o net sq d frames t rem (stateBefore o net sq d frames t).1
        (stateBefore o net sq d frames t).2 acc
      = acc.reverse ++ (List.range' t rem).map (recAt o net sq d frames) := by
  intro rem
  induction rem with
  | zero => intro t acc; simp [rolloutAux]
  | succ rem ih =>
    intro t acc
    rw [rolloutAux]
    have hstep : stepAt o net sq d frames t (stateBefore o net sq d frames t).1
        (stateBefore o net sq d frames t).2 = stateBefore o net sq d frames (t + 1) := rfl
    rw [hstep]
    have := ih (t + 1) ((stateBefore o net sq d frames (t + 1)).2 :: acc)
    rw [this]
    simp [List.range'_succ, recAt]

lemma rollout_eq_map {K H : Type} [Field K] {j c : Nat} (o : Nat)
    (net : Net K H j c) (sq : K → K) (d : GTData K j c) (frames : Nat) :
    rollout o net sq d frames
      = (List.range frames).map (recAt o net sq d frames) := by
  have h0 : (net.initHidden, (default : StepRec K j c))
      = stateBefore o net sq d frames 0 := rfl
  rw [rollout, show net.initHidden = (stateBefore o net sq d frames 0).1 from rfl,
    show (default : StepRec K j c) = (stateBefore o net sq d frames 0).2 from rfl,
    rolloutAux_eq_map, List.range_eq_range']
  simp

lemma rollout_length {K H : Type} [Field K] {j c : Nat} (o : Nat)
    (net : Net K H j c) (sq : K → K) (d : GTData K j c) (frames : Nat) :
    (rollout o net sq d frames).length = frames := by
  rw [rollout_eq_map]; simp

lemma rollout_getD {K H : Type} [Field K] {j c : Nat} (o : Nat)
    (net : Net K H j c) (sq : K → K) (d : GTData K j c) {frames t : Nat}
    (ht : t < frames) :
    (rollout o net sq d frames).getD t default = recAt o net sq d frames t := by
  rw [rollout_eq_map, List.getD_eq_getElem?_getD]
  rw [List.getElem?_map]
  simp [List.getElem?_range ht]

lemma stepAt_src {K H : Type} [Field K] {j c : Nat} (o : Nat) (net : Net K H j c)
    (sq : K → K) (d : GTData K j c) (frames t : Nat) (h : H) (prev : StepRec K j c) :
    srcOf (stepAt o net sq d frames t h prev).2
      = if t = 0 then gtAt d o else predOf prev := by
  cases t with
  | zero => simp [stepAt, srcOf, gtAt]
  | succ u => simp [stepAt, srcOf, predOf]

lemma recAt_src {K H : Type} [Field K] {j c : Nat} (o : Nat) (net : Net K H j c)
    (sq : K → K) (d : GTData K j c) (frames t : Nat) :
    srcOf (recAt o net sq d frames t)
      = if t = 0 then gtAt d o else predOf (recAt o net sq d frames (t - 1)) := by
  cases t with
  | zero => exact stepAt_src o net sq d frames 0 _ _
  | succ u =>
    have := stepAt_src o net sq d frames (u + 1)
      (stateBefore o net sq d frames (u + 1)).1 (stateBefore o net sq d frames (u + 1)).2
    simpa [recAt, stateBefore] using this

lemma recAt_residual {K H : Type} [Field K] {j c : Nat} (o : Nat) (net : Net K H j c)
    (sq : K → K) (d : GTData K j c) (frames t : Nat) :
    (recAt o net sq d frames t).local_q_pred
        = (recAt o net sq d frames t).local_q_v_pred
          + (recAt o net sq d frames t).local_q_t
      ∧ (recAt o net sq d frames t).root_pred
        = (recAt o net sq d frames t).root_v_pred
          + (recAt o net sq d frames t).root_p_t
      ∧ (recAt o net sq d frames t).local_q_pred_n
        = fun jn => normalizeQuat sq ((recAt o net sq d frames t).local_q_pred jn) := by
  refine ⟨rfl, rfl, rfl⟩

/-- A decoder stubbed to emit an all-zero residual at every step (the
regression fixture described by the specification). -/
def zeroNet (K : Type) [Field K] (j c : Nat) : Net K Unit j c :=
  { step := fun _ _ _ _ _ _ _ _ _ => ((), (0, 0, 0)), initHidden := () }

lemma recAt_zeroNet_root {K : Type} [Field K] {j c : Nat} (o : Nat)
    (sq : K → K) (d : GTData K j c) (frames : Nat) :
    ∀ t, t < frames → (recAt o (zeroNet K j c) sq d frames t).root_pred = d.root_p o := by
  intro t
  induction t with
  | zero =>
    intro _
    show (stepAt o (zeroNet K j c) sq d frames 0 _ _).2.root_pred = d.root_p o
    simp [stepAt, zeroNet]
  | succ u ih =>
    intro hu
    show (stepAt o (zeroNet K j c) sq d frames (u + 1) _ _).2.root_pred = d.root_p o
    have hprev : (stateBefore o (zeroNet K j c) sq d frames (u + 1)).2.root_pred
        = d.root_p o := ih (Nat.lt_of_succ_lt hu)
    have hz : ∀ (h : Unit) lq rv ct ro lo tg t tta,
        ((zeroNet K j c).step h lq rv ct ro lo tg t tta).2.2.1 = (0 : Vec K 3) :=
      fun _ _ _ _ _ _ _ _ _ => rfl
    simp [stepAt, hz, hprev]

lemma rolloutAt_src {K H : Type} [Field K] {j c : Nat} (o : Nat) (net : Net K H j c)
    (sq : K → K) (d : GTData K j c) {frames t : Nat} (ht : t < frames) :
    srcOf ((rollout o net sq d frames).getD t default)
      = if t = 0 then gtAt d o
        else predOf ((rollout o net sq d frames).getD (t - 1) default) := by
  cases t with
  | zero =>
    rw [rollout_getD o net sq d ht]
    simpa using recAt_src o net sq d frames 0
  | succ u =>
    rw [rollout_getD o net sq d ht]
    simp only [Nat.add_sub_cancel]
    rw [rollout_getD o net sq d (Nat.lt_of_succ_lt ht)]
    simpa using recAt_src o net sq d frames (u + 1)

/-- C1: in both the training and the inference loop, iteration 0 builds its
state input from ground truth at the start-of-window offset (frame 10 in
`train.py`, frame 9 in `test.py`), every iteration `t > 0` builds it from
the predictions `root_pred, root_v_pred, local_q_pred, contact_pred` of
iteration `t - 1`, and the rollout performs exactly `training_frames`
iterations. -/
theorem claim_C1 {K H : Type} [Field K] {j c : Nat} (net : Net K H j c)
    (sq : K → K) (d : GTData K j c) (frames t : Nat) (ht : t < frames) :
    ((trainRollout net sq d frames).length = frames ∧
      srcOf (trainRolloutAt net sq d frames t)
        = if t = 0 then gtAt d 10
          else predOf (trainRolloutAt net sq d frames (t - 1))) ∧
    ((testRollout net sq d frames).length = frames ∧
      srcOf (testRolloutAt net sq d frames t)
        = if t = 0 then gtAt d 9
          else predOf (testRolloutAt net sq d frames (t - 1))) := by
  refine ⟨⟨rollout_length 10 net sq d frames, ?_⟩,
    ⟨rollout_length 9 net sq d frames, ?_⟩⟩
  · exact rolloutAt_src 10 net sq d ht
  · exact rolloutAt_src 9 net sq d ht

/-- Concrete ground-truth window over `ℚ` used to evaluate the rollout. -/
def qd : GTData ℚ 1 1 where
  root_p := fun n _ => (n : ℚ)
  root_v := fun n _ => (n : ℚ) + 100
  local_q := fun n _ _ => (n : ℚ) + 200
  contact := fun n _ => (n : ℚ) + 300
  root_p_offset := fun _ => 7
  local_q_offset := fun _ _ => 8
  q_target := fun _ _ => 9

/-- Concrete network over `ℚ` with step-dependent decoder output, used to
evaluate the rollout. -/
def constNet : Net ℚ Unit 1 1 where
  step := fun _ _ _ _ _ _ _ t _ =>
    ((), (fun _ _ => (t : ℚ) + 1, fun _ => (t : ℚ) + 2, fun _ => (t : ℚ) + 3))
  initHidden := ()

/-- Witness for C1 at a rollout of 3 frames, checked at iteration 1. -/
theorem claim_C1_witness :
    (1 < 3) ∧
    (((trainRollout constNet id qd 3).length = 3 ∧
      srcOf (trainRolloutAt constNet id qd 3 1)
        = if (1 : Nat) = 0 then gtAt qd 10
          else predOf (trainRolloutAt constNet id qd 3 0)) ∧
     ((testRollout constNet id qd 3).length = 3 ∧
      srcOf (testRolloutAt constNet id qd 3 1)
        = if (1 : Nat) = 0 then gtAt qd 9
          else predOf (testRolloutAt constNet id qd 3 0))) :=
  ⟨by decide, claim_C1 constNet id qd 3 1 (by decide)⟩

/-- C7: the decoder output is consumed as a residual — the predicted local
quaternions are the decoder rotation block plus the previous quaternions and
the predicted root is the decoder root-velocity block plus the previous root
position — and with the decoder stubbed to all-zero residuals the predicted
root position stays at the initial (ground-truth anchor) root position at
every frame of the window, in both loops. -/
theorem claim_C7 {K H : Type} [Field K] {j c : Nat} (net : Net K H j c)
    (sq : K → K) (d : GTData K j c) (frames t : Nat) (ht : t < frames) :
    ((trainRolloutAt net sq d frames t).local_q_pred
        = (trainRolloutAt net sq d frames t).local_q_v_pred
          + (trainRolloutAt net sq d frames t).local_q_t ∧
      (trainRolloutAt net sq d frames t).root_pred
        = (trainRolloutAt net sq d frames t).root_v_pred
          + (trainRolloutAt net sq d frames t).root_p_t) ∧
    ((testRolloutAt net sq d frames t).local_q_pred
        = (testRolloutAt net sq d frames t).local_q_v_pred
          + (testRolloutAt net sq d frames t).local_q_t ∧
      (testRolloutAt net sq d frames t).root_pred
        = (testRolloutAt net sq d frames t).root_v_pred
          + (testRolloutAt net sq d frames t).root_p_t) ∧
    ((trainRolloutAt (zeroNet K j c) sq d frames t).root_pred = d.root_p 10 ∧
     (testRolloutAt (zeroNet K j c) sq d frames t).root_pred = d.root_p 9) := by
  have h10 := rollout_getD 10 net sq d ht
  have h9 := rollout_getD 9 net sq d ht
  have hz10 := rollout_getD 10 (zeroNet K j c) sq d ht
  have hz9 := rollout_getD 9 (zeroNet K j c) sq d ht
  refine ⟨?_, ?_, ?_, ?_⟩
  · rw [trainRolloutAt, trainRollout, h10]
    exact ⟨(recAt_residual 10 net sq d frames t).1, (recAt_residual 10 net sq d frames t).2.1⟩
  · rw [testRolloutAt, testRollout, h9]
    exact ⟨(recAt_residual 9 net sq d frames t).1, (recAt_residual 9 net sq d frames t).2.1⟩
  · rw [trainRolloutAt, trainRollout, hz10]
    exact recAt_zeroNet_root 10 sq d frames t ht
  · rw [testRolloutAt, testRollout, hz9]
    exact recAt_zeroNet_root 9 sq d frames t ht

/-- Witness for C7 at a rollout of 3 frames, checked at iteration 1. -/
theorem claim_C7_witness :
    (1 < 3) ∧
    (((trainRolloutAt constNet id qd 3 1).local_q_pred
        = (trainRolloutAt constNet id qd 3 1).local_q_v_pred
          + (trainRolloutAt constNet id qd 3 1).local_q_t ∧
      (trainRolloutAt constNet id qd 3 1).root_pred
        = (trainRolloutAt constNet id qd 3 1).root_v_pred
          + (trainRolloutAt constNet id qd 3 1).root_p_t) ∧
     ((testRolloutAt constNet id qd 3 1).local_q_pred
        = (testRolloutAt constNet id qd 3 1).local_q_v_pred
          + (testRolloutAt constNet id qd 3 1).local_q_t ∧
      (testRolloutAt constNet id qd 3 1).root_pred
        = (testRolloutAt constNet id qd 3 1).root_v_pred
          + (testRolloutAt constNet id qd 3 1).root_p_t) ∧
     ((trainRolloutAt (zeroNet ℚ 1 1) id qd 3 1).root_pred = qd.root_p 10 ∧
      (testRolloutAt (zeroNet ℚ 1 1) id qd 3 1).root_pred = qd.root_p 9)) :=
  ⟨by decide, claim_C7 constNet id qd 3 1 (by decide)⟩

/-- L2 norm of a quaternion, `torch.norm(·, dim=-1)` with real semantics. -/
noncomputable def quatNorm (v : Quat ℝ) : ℝ := Real.sqrt (quatNormSq v)

lemma quatNormSq_nonneg (v : Quat ℝ) : 0 ≤ quatNormSq v := by
  unfold quatNormSq; positivity

lemma quatNorm_normalize (v : Quat ℝ) (h : quatNormSq v ≠ 0) :
    quatNorm (normalizeQuat Real.sqrt v) = 1 := by
  have hnn : 0 ≤ quatNormSq v := quatNormSq_nonneg v
  have hsq : Real.sqrt (quatNormSq v) ^ 2 = quatNormSq v := Real.sq_sqrt hnn
  have hns : quatNormSq (normalizeQuat Real.sqrt v) = 1 := by
    have hdiv : quatNormSq (normalizeQuat Real.sqrt v)
        = quatNormSq v / Real.sqrt (quatNormSq v) ^ 2 := by
      simp only [normalizeQuat, quatNormSq, div_pow]
      ring
    rw [hdiv, hsq, div_self h]
  rw [quatNorm, hns, Real.sqrt_one]

/-- C6: at every rollout iteration the predicted per-joint quaternions are
divided by their own L2 norm along the last axis, so every predicted joint
quaternion appended to the output sequence has L2 norm 1 — for every
iteration and joint index, whenever the pre-normalization quaternion has
nonzero norm (a zero quaternion divides to NaN in floats and has no unit
normalization in exact arithmetic), in both loops. -/
theorem claim_C6 {H : Type} {j c : Nat} (net : Net ℝ H j c) (d : GTData ℝ j c)
    (frames t : Nat) (ht : t < frames) (jq : Fin j) :
    (quatNormSq ((trainRolloutAt net Real.sqrt d frames t).local_q_pred jq) ≠ 0 →
      quatNorm ((trainRolloutAt net Real.sqrt d frames t).local_q_pred_n jq) = 1) ∧
    (quatNormSq ((testRolloutAt net Real.sqrt d frames t).local_q_pred jq) ≠ 0 →
      quatNorm ((testRolloutAt net Real.sqrt d frames t).local_q_pred_n jq) = 1) := by
  constructor
  · intro hne
    rw [trainRolloutAt, trainRollout, rollout_getD 10 net Real.sqrt d ht] at hne ⊢
    have hn := congrFun (recAt_residual 10 net Real.sqrt d frames t).2.2 jq
    rw [hn]
    exact quatNorm_normalize _ hne
  · intro hne
    rw [testRolloutAt, testRollout, rollout_getD 9 net Real.sqrt d ht] at hne ⊢
    have hn := congrFun (recAt_residual 9 net Real.sqrt d frames t).2.2 jq
    rw [hn]
    exact quatNorm_normalize _ hne

/-- The identity quaternion. -/
def unitQuat : Quat ℝ := fun i => if i = 0 then 1 else 0

/-- Concrete ground-truth window over `ℝ` whose local quaternions are all
the identity quaternion. -/
noncomputable def rd : GTData ℝ 1 1 where
  root_p := fun _ => 0
  root_v := fun _ => 0
  local_q := fun _ _ => unitQuat
  contact := fun _ => 0
  root_p_offset := 0
  local_q_offset := fun _ => 0
  q_target := fun _ => 0

/-- Witness for C6: one training-rollout step of the zero-residual decoder
on identity-quaternion ground truth. -/
theorem claim_C6_witness :
    (0 < 1) ∧
    quatNormSq ((trainRolloutAt (zeroNet ℝ 1 1) Real.sqrt rd 1 0).local_q_pred 0) ≠ 0 ∧
    quatNorm ((trainRolloutAt (zeroNet ℝ 1 1) Real.sqrt rd 1 0).local_q_pred_n 0) = 1 := by
  have heval : (trainRolloutAt (zeroNet ℝ 1 1) Real.sqrt rd 1 0).local_q_pred 0
      = unitQuat := by
    rw [trainRolloutAt, trainRollout,
      rollout_getD 10 (zeroNet ℝ 1 1) Real.sqrt rd Nat.zero_lt_one]
    show ((stepAt 10 (zeroNet ℝ 1 1) Real.sqrt rd 1 0 _ _).2).local_q_pred 0 = unitQuat
    simp [stepAt, zeroNet, rd]
  have hne : quatNormSq ((trainRolloutAt (zeroNet ℝ 1 1) Real.sqrt rd 1 0).local_q_pred 0)
      ≠ 0 := by
    have h2 : ((2 : Fin 4) = (0 : Fin 4)) = False := eq_false (by decide)
    have h3 : ((3 : Fin 4) = (0 : Fin 4)) = False := eq_false (by decide)
    rw [heval]
    norm_num [quatNormSq, unitQuat, h2, h3]
  exact ⟨Nat.zero_lt_one, hne,
    (claim_C6 (zeroNet ℝ 1 1) rd 1 0 Nat.zero_lt_one 0).1 hne⟩

/-- Weight format selected by the `--Filetype` switch of `test.py`. -/
inductive Filetype
  | ONNX
  | PKL
deriving DecidableEq

/-- Observable events of one per-window batch iteration: the hidden-state
reset of the recurrent core, a rollout loop iteration, and a call to
`skeleton.forward_kinematics_with_rotation` batched over `timesteps`
frames. -/
inductive BatchEv
  | initHidden
  | rolloutStep (t : Nat)
  | fk (timesteps : Nat)
deriving DecidableEq

/-- Event trace of one training batch (`train.py`): `lstm.init_hidden`
at line 153, then the rollout loop of lines 167-247, then one forward
kinematics call on the stacked full window at line 252. -/
def trainBatchEvents (frames : Nat) : List BatchEv :=
  [BatchEv.initHidden]
    ++ (List.range frames).map BatchEv.rolloutStep
    ++ [BatchEv.fk frames]

/-- Event trace of one inference batch (`test.py`): `lstm.init_hidden` at
line 179 runs only under `if(filetype == 'PKL')` (lines 177-179; the
comment there reads "Comment out for ONNX"), and the loop of lines 181-272
calls forward kinematics once per iteration on a single unsqueezed frame
(line 272). -/
def testBatchEvents (ft : Filetype) (frames : Nat) : List BatchEv :=
  (if ft = Filetype.PKL then [BatchEv.initHidden] else [])
    ++ (List.range frames).flatMap (fun t => [BatchEv.rolloutStep t, BatchEv.fk 1])

/-- C2 fails on the code: with the default `--Filetype ONNX`, the inference
loop of `test.py` never resets the recurrent hidden state — `init_hidden`
appears nowhere in the ONNX-path trace of a window. -/
theorem claim_C2_counterexample :
    BatchEv.initHidden ∉ testBatchEvents Filetype.ONNX 1 := by decide

/-- C2 (amended): the training loop resets the recurrent hidden state via
`init_hidden` before the first timestep of every window/batch, and so does
the inference loop when the filetype is PKL; with filetype ONNX the
inference loop performs no hidden-state reset at all. -/
theorem claim_C2 (frames : Nat) :
    (trainBatchEvents frames).head? = some BatchEv.initHidden ∧
    (testBatchEvents Filetype.PKL frames).head? = some BatchEv.initHidden ∧
    BatchEv.initHidden ∉ testBatchEvents Filetype.ONNX frames := by
  refine ⟨rfl, rfl, ?_⟩
  simp [testBatchEvents]

/-- Forward-kinematics calls appearing in a batch trace, each tagged with
the number of timesteps the call is batched over. -/
def fkCalls (evs : List BatchEv) : List Nat :=
  evs.filterMap fun e =>
    match e with
    | BatchEv.fk n => some n
    | _ => none

/-- C5 fails on the code: in `test.py` forward kinematics is invoked inside
the rollout loop, once per timestep — a 2-frame inference window performs 2
FK calls, not a single batched one. -/
theorem claim_C5_counterexample :
    (fkCalls (testBatchEvents Filetype.PKL 2)).length ≠ 1 := by decide

lemma fkCalls_testLoop (l : List Nat) :
    fkCalls (l.flatMap fun t => [BatchEv.rolloutStep t, BatchEv.fk 1])
      = List.replicate l.length 1 := by
  induction l with
  | nil => rfl
  | cons a l ih => simp [fkCalls, List.replicate_succ] at ih ⊢; exact ih

/-- C5 (amended): the training loop invokes forward kinematics exactly once
per window, as a single call batched over all `training_frames` timesteps of
the stacked prediction; the inference loop instead invokes it once per
timestep inside the loop, each call on a single frame. -/
theorem claim_C5 (frames : Nat) (ft : Filetype) :
    fkCalls (trainBatchEvents frames) = [frames] ∧
    fkCalls (testBatchEvents ft frames) = List.replicate frames 1 := by
  constructor
  · simp [trainBatchEvents, fkCalls, List.filterMap_append]
  · have h := fkCalls_testLoop (List.range frames)
    cases ft <;>
      simpa [testBatchEvents, fkCalls, List.filterMap_append] using h

/-- The trainable modules of `train.py` (lines 75-99). -/
inductive TrainModule
  | state_enc
  | offset_enc
  | target_enc
  | core
  | decoder
  | short_disc
  | long_disc
deriving DecidableEq

/-- Parameter-update events of one training batch: `zero_grad`, `backward`,
an optimizer step updating the listed modules, and a
`clip_grad_norm_(module.parameters(), cap)` call. -/
inductive UpdateEv
  | zeroGradD
  | backwardD
  | stepOpt (ms : List TrainModule)
  | zeroGradG
  | backwardG
  | clip (m : TrainModule) (cap : ℚ)
deriving DecidableEq

/-- The update-phase trace of one training batch, `train.py` lines 280-326:
discriminator `zero_grad` (280), discriminator backward (296), the
discriminator optimizer step (297, updating both discriminators per lines
112-116), generator `zero_grad` (299), generator backward (316), the seven
`clip_grad_norm_(·, 1.0)` calls (319-325), and the generator optimizer step
(326, updating the three encoders, the recurrent core and the decoder per
lines 103-110). -/
def updateEvents : List UpdateEv :=
  [UpdateEv.zeroGradD,
   UpdateEv.backwardD,
   UpdateEv.stepOpt [TrainModule.short_disc, TrainModule.long_disc],
   UpdateEv.zeroGradG,
   UpdateEv.backwardG,
   UpdateEv.clip TrainModule.state_enc 1,
   UpdateEv.clip TrainModule.offset_enc 1,
   UpdateEv.clip TrainModule.target_enc 1,
   UpdateEv.clip TrainModule.core 1,
   UpdateEv.clip TrainModule.decoder 1,
   UpdateEv.clip TrainModule.short_disc 1,
   UpdateEv.clip TrainModule.long_disc 1,
   UpdateEv.stepOpt [TrainModule.state_enc, TrainModule.offset_enc,
     TrainModule.target_enc, TrainModule.core, TrainModule.decoder]]

/-- Modules that some optimizer step updates although no
`clip_grad_norm_(·, 1.0)` on them has run earlier in the trace, scanning
left to right with the set of already-clipped modules. -/
def unclippedFrom (clipped : List TrainModule) : List UpdateEv → List TrainModule
  | [] => []
  | UpdateEv.clip m cap :: rest =>
    unclippedFrom (if cap = 1 then m :: clipped else clipped) rest
  | UpdateEv.stepOpt ms :: rest =>
    ms.filter (fun m => !(clipped.contains m)) ++ unclippedFrom clipped rest
  | _ :: rest => unclippedFrom clipped rest

/-- Modules stepped on unclipped gradients in a full update trace. -/
def unclippedSteps (evs : List UpdateEv) : List TrainModule :=
  unclippedFrom [] evs

/-- C3 fails on the code: the discriminator optimizer step at `train.py`
line 297 executes before any `clip_grad_norm_` call of the batch, so an
optimizer step does run on unclipped gradients. -/
theorem claim_C3_counterexample : unclippedSteps updateEvents ≠ [] := by decide

/-- C3 (amended): gradient-norm clipping with cap 1.0 is applied to every
trainable module before the generator optimizer step, but the discriminator
optimizer step runs on unclipped gradients — the discriminators' clip calls
(lines 324-325) only happen after their step (line 297); the modules stepped
without a prior clip are exactly the two discriminators. -/
theorem claim_C3 :
    unclippedSteps updateEvents
      = [TrainModule.short_disc, TrainModule.long_disc] := by decide

/-- Batches processed by the training loop of `train.py` (lines 128-134):
the loop body runs for every batch the loader yields, reading
`current_batch_size = len(sampled_batch['global_pos'])` and using that size
throughout — there is no size check and no skip. -/
def trainProcessedBatches (_cfg : Nat) (bsizes : List Nat) : List Nat :=
  bsizes

/-- Batches processed by the inference loop of `test.py` (lines 153-155):
`if(config['model']['batch_size'] != current_batch_size): break` — the first
batch whose size differs from the configured size terminates the loop. -/
def testProcessedBatches (cfg : Nat) : List Nat → List Nat
  | [] => []
  | b :: rest => if cfg ≠ b then [] else b :: testProcessedBatches cfg rest

/-- C4 fails on the code for the training loop: with configured batch size 4
and a trailing batch of size 2, `train.py` processes the partial batch
rather than skipping it. -/
theorem claim_C4_counterexample : trainProcessedBatches 4 [4, 2] ≠ [4] := by
  decide

/-- C4 (amended): the inference loop stops at the first batch whose size
differs from the configured batch size, so in an epoch of full batches with
one trailing partial batch it processes exactly the full batches and skips
the partial one without error; the training loop has no such check and
processes every batch, including a trailing partial one. -/
theorem claim_C4 (cfg k r : Nat) (h : r ≠ cfg) (bs : List Nat) :
    testProcessedBatches cfg (List.replicate k cfg ++ [r]) = List.replicate k cfg ∧
    trainProcessedBatches cfg bs = bs := by
  refine ⟨?_, rfl⟩
  induction k with
  | zero => simp [testProcessedBatches, Ne.symm h]
  | succ n ih => simpa [List.replicate_succ, testProcessedBatches] using ih

/-- Witness for C4 with configured batch size 4, two full batches and a
trailing batch of size 2. -/
theorem claim_C4_witness :
    (2 ≠ 4) ∧
    (testProcessedBatches 4 (List.replicate 2 4 ++ [2]) = List.replicate 2 4 ∧
     trainProcessedBatches 4 [4, 4, 2] = [4, 4, 2]) :=
  ⟨by decide, claim_C4 4 2 2 (by decide) [4, 4, 2]⟩

/-- Python `str(x).upper()` on the ASCII argument strings: per-character
upper-casing. -/
def upperAscii (s : String) : String := ⟨s.data.map Char.toUpper⟩

/-- Resolution of the `--Dataset` argument, `test.py` lines 327-332: default
DFKI; a given value is upper-cased and accepted if it is DFKI or LAFAN,
otherwise the default is kept and a warning is printed (the returned flag;
no exception is raised on any input). -/
def parseDataset : Option String → String × Bool
  | none => ("DFKI", false)
  | some v =>
    if upperAscii v = "DFKI" ∨ upperAscii v = "LAFAN" then (upperAscii v, false)
    else ("DFKI", true)

/-- Resolution of the `--Filetype` argument, `test.py` lines 334-339: default
ONNX; a given value is upper-cased and accepted if it is ONNX or PKL,
otherwise the default is kept and a warning is printed. -/
def parseFiletype : Option String → String × Bool
  | none => ("ONNX", false)
  | some v =>
    if upperAscii v = "ONNX" ∨ upperAscii v = "PKL" then (upperAscii v, false)
    else ("ONNX", true)

/-- C8: an unsupported `--Dataset` value falls back to the default DFKI and
an unsupported `--Filetype` value falls back to the default ONNX, each with
a warning and never an error (the resolution is total); supported values
are matched case-insensitively via upper-casing and the requested selection
is the one used, without warning. -/
theorem claim_C8 (s f : String) :
    ((upperAscii s = "DFKI" ∨ upperAscii s = "LAFAN") →
      parseDataset (some s) = (upperAscii s, false)) ∧
    (¬(upperAscii s = "DFKI" ∨ upperAscii s = "LAFAN") →
      parseDataset (some s) = ("DFKI", true)) ∧
    ((upperAscii f = "ONNX" ∨ upperAscii f = "PKL") →
      parseFiletype (some f) = (upperAscii f, false)) ∧
    (¬(upperAscii f = "ONNX" ∨ upperAscii f = "PKL") →
      parseFiletype (some f) = ("ONNX", true)) ∧
    parseDataset none = ("DFKI", false) ∧ parseFiletype none = ("ONNX", false) := by
  refine ⟨fun h => ?_, fun h => ?_, fun h => ?_, fun h => ?_, rfl, rfl⟩
  · simp [parseDataset, h]
  · simp [parseDataset, h]
  · simp [parseFiletype, h]
  · simp [parseFiletype, h]

/-- Witness for C8: lower-case "lafan" is accepted as LAFAN and the
unsupported value "bvh" falls back to ONNX with a warning. -/
theorem claim_C8_witness :
    parseDataset (some "lafan") = (upperAscii "lafan", false) ∧
    parseFiletype (some "bvh") = ("ONNX", true) :=
  ⟨(claim_C8 "lafan" "bvh").1 (by decide),
   (claim_C8 "lafan" "bvh").2.2.2.1 (by decide)⟩

/-- Evolution of `pose_stack` in `test.py`: initialized with the ground
truth start pose `global_pos[inference_batch_index, 0+9]` before the loop
(line 158); each iteration `t` pops the front element (`pose_stack.pop(0)`,
line 279) and appends the current prediction (line 281). `poseStackAt s p t`
is the stack contents at entry to iteration `t`, where `p t` is the
prediction pushed by iteration `t`. -/
def poseStackAt {α : Type} (start : α) (pred : Nat → α) : Nat → List α
  | 0 => [start]
  | t + 1 => (poseStackAt start pred t).drop 1 ++ [pred t]

lemma poseStackAt_eq_single {α : Type} (start : α) (pred : Nat → α) :
    ∀ t, poseStackAt start pred t = [if t = 0 then start else pred (t - 1)] := by
  intro t
  induction t with
  | zero => rfl
  | succ u ih => simp [poseStackAt, ih]

/-- C9: at entry to every timestep of the inference loop the pose buffer
holds exactly one pose — the ground-truth start pose at `t = 0`, otherwise
the prediction of the previous timestep — so the pop yields that pose
(one frame behind the current prediction), the assertion
`len(pose_stack) == 0` after the pop holds, and the push restores the
one-element buffer for the next timestep. -/
theorem claim_C9 {α : Type} (start : α) (pred : Nat → α) (t : Nat) :
    (poseStackAt start pred t).length = 1 ∧
    (poseStackAt start pred t).head?
      = some (if t = 0 then start else pred (t - 1)) ∧
    ((poseStackAt start pred t).drop 1).length = 0 := by
  rw [poseStackAt_eq_single]
  exact ⟨rfl, rfl, rfl⟩

/-- Ground-truth frame indices read by the training rollout loop of
`train.py`: during iteration `t` of `for t in range(training_frames)`, the
teacher-forced inputs at `t+10` when `t == 0` (lines 170-174) and the loss
targets at `t+1+10` (lines 243-247). -/
def trainRolloutReads (frames : Nat) : List Nat :=
  (List.range frames).flatMap fun t =>
    (if t = 0 then [t + 10] else []) ++ [t + 1 + 10]

/-- Ground-truth frame indices read per batch by the inference loop of
`test.py`: the pose-buffer seed at `0+9` before the loop (line 158), and
during iteration `t` the teacher-forced inputs at `t+9` when `t == 0`
(lines 184-188), the start pose at `0+9` (line 278), the ground-truth
in-between pose at `t+9` (line 283) and the target pose at
`training_frames-1+9` (line 284). -/
def testRolloutReads (frames : Nat) : List Nat :=
  [0 + 9] ++ (List.range frames).flatMap fun t =>
    (if t = 0 then [t + 9] else []) ++ [0 + 9, t + 9, frames - 1 + 9]

/-- C10: for a rollout of at least one frame, every ground-truth frame index
read by the training rollout is at most `training_frames + 10`, every index
read by the inference rollout (anchored at offset 9) is at most
`training_frames + 8`, and therefore a window of at least
`training_frames + 11` frames (training) respectively `training_frames + 9`
frames (inference) keeps every per-frame read in bounds. -/
theorem claim_C10 (frames w wt : Nat) (hf : 1 ≤ frames)
    (hw : frames + 11 ≤ w) (hwt : frames + 9 ≤ wt) :
    (∀ i ∈ trainRolloutReads frames, i ≤ frames + 10) ∧
    (∀ i ∈ trainRolloutReads frames, i < w) ∧
    (∀ i ∈ testRolloutReads frames, i ≤ frames + 8) ∧
    (∀ i ∈ testRolloutReads frames, i < wt) := by
  have htr : ∀ i ∈ trainRolloutReads frames, i ≤ frames + 10 := by
    intro i hi
    simp only [trainRolloutReads, List.mem_flatMap, List.mem_range] at hi
    obtain ⟨t, ht, hin⟩ := hi
    by_cases h0 : t = 0
    · subst h0
      simp at hin
      rcases hin with h | h <;> omega
    · simp [h0] at hin
      omega
  have hte : ∀ i ∈ testRolloutReads frames, i ≤ frames + 8 := by
    intro i hi
    simp only [testRolloutReads, List.mem_append, List.mem_singleton,
      List.mem_flatMap, List.mem_range] at hi
    rcases hi with h | ⟨t, ht, hin⟩
    · omega
    · by_cases h0 : t = 0
      · subst h0
        simp at hin
        rcases hin with h | h <;> omega
      · simp [h0] at hin
        rcases hin with h | h | h <;> omega
  refine ⟨htr, ?_, hte, ?_⟩
  · intro i hi
    have := htr i hi
    omega
  · intro i hi
    have := hte i hi
    omega

/-- Witness for C10 with `training_frames = 30` and the minimal window
lengths 41 (training) and 39 (inference). -/
theorem claim_C10_witness :
    (1 ≤ 30 ∧ 30 + 11 ≤ 41 ∧ 30 + 9 ≤ 39) ∧
    ((∀ i ∈ trainRolloutReads 30, i ≤ 30 + 10) ∧
     (∀ i ∈ trainRolloutReads 30, i < 41) ∧
     (∀ i ∈ testRolloutReads 30, i ≤ 30 + 8) ∧
     (∀ i ∈ testRolloutReads 30, i < 39)) :=
  ⟨by decide, claim_C10 30 41 39 (by decide) (by decide) (by decide)⟩
